import Mathlib

/-!
Verification of the ikago client entry point (cmd/ikago-client/main.go).

The program is embedded shallowly:

* Go strings are Lean `String`s; where character-level reasoning is needed
  (the `splitArg` helper) they are lists of characters.
* The packet filters produced by `pcap.ParseFilter` form a variant type with
  three kinds (by IP, by port, by IP and port); `FilterType()` dispatch in the
  source becomes a `match` on the constructor.
* The randomized upstream-port selection loop consumes an abstract stream of
  random draws `draws : Nat -> Nat`; the call `r.Intn(16384)` at step `i`
  yields `draws i % 16384`.  The unbounded `for` loop is embedded with
  explicit fuel, `none` meaning the loop has not yet finished.
* The collaborator packages (`internal/config`, `internal/pcap`,
  `internal/crypto`) are not part of the sources; `main` only branches on
  whether their calls succeed, so they are parameters of the model
  (`Collab`), each returning `Except Unit _`.
* Modelled from the spec: `internal/log`'s `log.Fatalln` ("fatal errors
  unwind to the entry point and terminate the process with a non-zero
  status") is the outcome `Outcome.fatal k`, meaning the message for `k` was
  reported and the process exited with a non-zero status; `os.Exit(0)` after
  a successful device listing is `Outcome.listOk`.
-/

namespace IkaGo

/-- A packet filter, as produced by `pcap.ParseFilter`: one of the three
kinds `FilterTypeIP`, `FilterTypePort`, `FilterTypeIPPort`.  Addresses and
ports are naturals. -/
inductive Filter where
  | ip (addr : Nat)
  | port (p : Nat)
  | ipPort (addr : Nat) (p : Nat)
deriving DecidableEq, Repr

/-- The candidate port produced at step `i` of the selection loop:
`49152 + r.Intn(16384)`. -/
def drawPort (draws : Nat → Nat) (i : Nat) : Nat :=
  49152 + draws i % 16384

/-- The collision check of the selection loop (main.go lines 109-124): scan
the filters and set `exist` when a `FilterTypePort` filter's port equals
`uint16(cfg.UpPort)`.  The `case FilterTypeIP, FilterTypeIPPort` arm of the
Go `switch` only breaks out of the switch, so those filters set nothing. -/
def portExists (filters : List Filter) (upPort : Nat) : Bool :=
  filters.any fun f =>
    match f with
    | .ip _ => false
    | .port q => q == upPort % 65536
    | .ipPort _ _ => false

/-- The retry loop of main.go lines 107-128, with explicit fuel: draw a
candidate port; if some `FilterTypePort` filter holds that port, retry,
otherwise return it.  `none` means the fuel ran out before a draw was
accepted. -/
def selectUpPortAux : Nat → (Nat → Nat) → List Filter → Nat → Option Nat
  | 0, _, _, _ => none
  | fuel + 1, draws, filters, i =>
    if portExists filters (drawPort draws i) then
      selectUpPortAux fuel draws filters (i + 1)
    else
      some (drawPort draws i)

/-- Go `strings.Trim(str, " ")` on a string given as a character list: strip
space characters (only U+0020, as in the Go call) from both ends. -/
def trimSpaces (l : List Char) : List Char :=
  ((l.dropWhile (· == ' ')).reverse.dropWhile (· == ' ')).reverse

/-- Go `strings.Split(s, ",")` on a character list: the substrings between
commas, in order, `n + 1` of them for `n` commas, empties included. -/
def splitComma : List Char → List (List Char)
  | [] => [[]]
  | c :: rest =>
    if c = ',' then
      [] :: splitComma rest
    else
      match splitComma rest with
      | [] => [[c]]
      | h :: t => (c :: h) :: t

/-- Joining with commas, the inverse of `splitComma`; used to state that
`splitComma` really produces the comma-separated components. -/
def joinComma : List (List Char) → List Char
  | [] => []
  | [x] => x
  | x :: y :: xs => x ++ ',' :: joinComma (y :: xs)

/-- `splitArg` of main.go lines 199-213, at the character-list level: the
empty string gives `nil`; otherwise split on commas and trim spaces from
each component. -/
def splitArgL (l : List Char) : List (List Char) :=
  if l = [] then [] else (splitComma l).map trimSpaces

/-- `splitArg` on Lean strings (the form used when building the inline
configuration). -/
def splitArg (s : String) : List String :=
  (splitArgL s.toList).map fun cs => String.mk cs

/-- The `config.Config` struct fields read by `main`. -/
structure Config where
  listenDevs : List String
  upDev : String
  method : String
  password : String
  verbose : Bool
  upPort : Int
  filters : List String
  server : String
deriving DecidableEq, Repr

/-- The command-line flags of ikago-client. -/
structure Args where
  listDevs : Bool
  config : String
  listenDevs : String
  upDev : String
  method : String
  password : String
  verbose : Bool
  upPort : Int
  filters : String
  server : String
deriving DecidableEq, Repr

/-- The collaborator packages `main` calls into (`internal/config`,
`internal/pcap`, `internal/crypto` are not part of the sources, so their
behaviour is a parameter): config-file parsing, device enumeration, filter
parsing, server address parsing, and crypto construction.  Only success or
failure of each call steers `main`, so errors are `Unit`. -/
structure Collab where
  parseConfigFile : String → Except Unit Config
  findAllDevs : Except Unit (List String)
  parseFilter : String → Except Unit Filter
  parseIPPort : String → Except Unit (Nat × Nat)
  parseCrypto : String → String → Except Unit Unit

/-- The inline configuration built from flags when no config file is given
(main.go lines 56-65). -/
def argsConfig (a : Args) : Config :=
  { listenDevs := splitArg a.listenDevs
    upDev := a.upDev
    method := a.method
    password := a.password
    verbose := a.verbose
    upPort := a.upPort
    filters := splitArg a.filters
    server := a.server }

/-- The configuration step (main.go lines 50-66): parse the file named by
`-c` when non-empty, the inline flags otherwise.  `none` means the file
failed to parse (a fatal error). -/
def getConfig (co : Collab) (a : Args) : Option Config :=
  if a.config = ("") then
    some (argsConfig a)
  else
    match co.parseConfigFile a.config with
    | .error _ => none
    | .ok c => some c

/-- The filter-parsing loop of main.go lines 91-97: parse each filter
string, stopping at the first failure. -/
def parseFilterList (pf : String → Except Unit Filter) :
    List String → Except Unit (List Filter)
  | [] => .ok []
  | s :: rest =>
    match pf s with
    | .error e => .error e
    | .ok f =>
      match parseFilterList pf rest with
      | .error e => .error e
      | .ok fs => .ok (f :: fs)

/-- Which `log.Fatalln` call fired, identified by its message. -/
inductive FatalKind where
  | parseConfig
  | listDevs
  | noFilters
  | noServer
  | parseFilter
  | portRange
  | parseServer
  | parseCrypto
deriving DecidableEq, Repr

/-- True for the fatal exits that happen before any pcap device call
(`FindAllDevs`, `FindListenDevs`, ...) is attempted. -/
def FatalKind.preDevice : FatalKind → Bool
  | .listDevs => false
  | _ => true

/-- How a run of the modelled prefix of `main` ends.  `fatal k` is modelled
from the spec: `log.Fatalln` reports the message identified by `k` and the
process exits with a non-zero status.  `listOk devs` prints each device and
calls `os.Exit(0)`.  `deviceLookup` means control reached
`pcap.FindListenDevs` (main.go line 151), carrying the state at that
point. -/
inductive Outcome where
  | fatal (k : FatalKind)
  | listOk (devs : List String)
  | deviceLookup (cfg : Config) (filters : List Filter) (upPort : Nat)
      (serverIP : Nat) (serverPort : Nat)
deriving DecidableEq, Repr

/-- True exactly when the outcome is a `log.Fatalln` exit. -/
def Outcome.isFatal : Outcome → Bool
  | .fatal _ => true
  | _ => false

/-- True when the outcome is a fatal exit taken before any device call. -/
def Outcome.preDeviceFatal : Outcome → Bool
  | .fatal k => k.preDevice
  | _ => false

/-- `main` after the configuration step (main.go lines 72-151): the
exclusive `-list-devices` command, parameter verification, filter parsing,
the port check and randomization, server parsing and crypto construction,
up to the first device-lookup call. -/
def afterConfig (co : Collab) (a : Args) (cfg : Config) (draws : Nat → Nat)
    (fuel : Nat) : Option Outcome :=
  if a.listDevs then
    match co.findAllDevs with
    | .error _ => some (.fatal .listDevs)
    | .ok devs => some (.listOk devs)
  else if cfg.filters.length ≤ 0 then
    some (.fatal .noFilters)
  else if cfg.server = ("") then
    some (.fatal .noServer)
  else
    match parseFilterList co.parseFilter cfg.filters with
    | .error _ => some (.fatal .parseFilter)
    | .ok fs =>
      if cfg.upPort < 0 ∨ 65536 ≤ cfg.upPort then
        some (.fatal .portRange)
      else
        match
          (if cfg.upPort = 0 then selectUpPortAux fuel draws fs 0
           else some cfg.upPort.toNat) with
        | none => none
        | some up =>
          match co.parseIPPort cfg.server with
          | .error _ => some (.fatal .parseServer)
          | .ok sp =>
            match co.parseCrypto cfg.method cfg.password with
            | .error _ => some (.fatal .parseCrypto)
            | .ok _ => some (.deviceLookup cfg fs up sp.1 sp.2)

/-- The modelled prefix of `main`: configuration, then `afterConfig`. -/
def mainModel (co : Collab) (a : Args) (draws : Nat → Nat) (fuel : Nat) :
    Option Outcome :=
  match getConfig co a with
  | none => some (.fatal .parseConfig)
  | some cfg => afterConfig co a cfg draws fuel

/-- A configuration contains a filter string that `pcap.ParseFilter`
rejects. -/
def hasMalformedFilter (co : Collab) (cfg : Config) : Prop :=
  ∃ s ∈ cfg.filters, co.parseFilter s = .error ()

/-- The configuration names an encryption method that `crypto.Parse`
rejects. -/
def hasUnknownMethod (co : Collab) (cfg : Config) : Prop :=
  co.parseCrypto cfg.method cfg.password = .error ()

/-- Sample collaborators whose calls all succeed (device listing finds one
device, every filter parses to a ByPort(1) filter, the server resolves, the
crypto method is known). -/
def okCollab : Collab :=
  { parseConfigFile := fun _ => .error ()
    findAllDevs := .ok ["eth0"]
    parseFilter := fun _ => .ok (.port 1)
    parseIPPort := fun _ => .ok (5, 80)
    parseCrypto := fun _ _ => .ok () }

/-- Sample collaborators rejecting every filter string and every crypto
method, while device listing succeeds. -/
def rejectCollab : Collab :=
  { parseConfigFile := fun _ => .error ()
    findAllDevs := .ok ["eth0"]
    parseFilter := fun _ => .error ()
    parseIPPort := fun _ => .ok (5, 80)
    parseCrypto := fun _ _ => .error () }

/-- Sample collaborators whose device enumeration fails. -/
def noDevsCollab : Collab :=
  { parseConfigFile := fun _ => .error ()
    findAllDevs := .error ()
    parseFilter := fun _ => .ok (.port 1)
    parseIPPort := fun _ => .ok (5, 80)
    parseCrypto := fun _ _ => .ok () }

/-- Sample flags for a plain proxy run with auto-selected upstream port. -/
def autoPortArgs : Args :=
  { listDevs := false, config := "", listenDevs := "", upDev := ""
    method := "plain", password := "", verbose := false, upPort := 0
    filters := "p", server := "s" }

/-- Sample flags for a proxy run whose filter flag is empty. -/
def noFiltersArgs : Args :=
  { listDevs := false, config := "", listenDevs := "", upDev := ""
    method := "plain", password := "", verbose := false, upPort := 1
    filters := "", server := "s" }

/-- Sample flags: `-list-devices` together with an (ignored) empty filter
list, empty server and out-of-range upstream port. -/
def listModeEmptyArgs : Args :=
  { listDevs := true, config := "", listenDevs := "", upDev := ""
    method := "plain", password := "", verbose := false, upPort := 70000
    filters := "", server := "" }

/-- Sample flags: `-list-devices` together with a filter string the parser
rejects and an unknown method name. -/
def listModeBadArgs : Args :=
  { listDevs := true, config := "", listenDevs := "", upDev := ""
    method := "unknown", password := "", verbose := false, upPort := 0
    filters := "x", server := "s" }

/-- Sample flags for an ordinary `-list-devices` invocation. -/
def listArgs : Args :=
  { listDevs := true, config := "", listenDevs := "", upDev := ""
    method := "plain", password := "", verbose := false, upPort := 0
    filters := "f", server := "s" }

/-- Sample flags for a proxy run with a filter string the parser rejects
and an unknown method name. -/
def badFilterArgs : Args :=
  { listDevs := false, config := "", listenDevs := "", upDev := ""
    method := "unknown", password := "", verbose := false, upPort := 1
    filters := "x", server := "s" }

/-- Sample collaborators whose config-file parser accepts exactly the file
name `c`. -/
def fileCollab : Collab :=
  { parseConfigFile := fun s =>
      if s = ("c") then .ok (argsConfig autoPortArgs) else .error ()
    findAllDevs := .ok ["eth0"]
    parseFilter := fun _ => .ok (.port 1)
    parseIPPort := fun _ => .ok (5, 80)
    parseCrypto := fun _ _ => .ok () }

/-- Sample flags naming a config file. -/
def fileArgs : Args :=
  { listDevs := false, config := "c", listenDevs := "", upDev := ""
    method := "plain", password := "", verbose := false, upPort := 0
    filters := "p", server := "s" }

/-- The same flags with every inline setting changed. -/
def fileArgsAlt : Args :=
  { fileArgs with listenDevs := "lo", upDev := "wan", method := "aes"
                  password := "pw", verbose := true, upPort := 7
                  filters := "q,r", server := "t" }

theorem selectUpPortAux_range (fuel : Nat) (draws : Nat → Nat)
    (filters : List Filter) (i p : Nat)
    (h : selectUpPortAux fuel draws filters i = some p) :
    49152 ≤ p ∧ p ≤ 65535 := by
  induction fuel generalizing i with
  | zero => simp [selectUpPortAux] at h
  | succ n ih =>
    rw [selectUpPortAux] at h
    split at h
    · exact ih (i + 1) h
    · rw [Option.some_inj] at h
      subst h
      unfold drawPort
      have hm : draws i % 16384 < 16384 := Nat.mod_lt _ (by decide)
      omega

theorem selectUpPortAux_no_collision (fuel : Nat) (draws : Nat → Nat)
    (filters : List Filter) (i p : Nat)
    (h : selectUpPortAux fuel draws filters i = some p) :
    portExists filters p = false := by
  induction fuel generalizing i with
  | zero => simp [selectUpPortAux] at h
  | succ n ih =>
    rw [selectUpPortAux] at h
    split at h
    · exact ih (i + 1) h
    · rw [Option.some_inj] at h
      subst h
      simp_all

theorem selectUpPortAux_of_free (fuel : Nat) (draws : Nat → Nat)
    (filters : List Filter) (start : Nat)
    (h : ∃ j, j < fuel ∧ portExists filters (drawPort draws (start + j)) = false) :
    ∃ p, selectUpPortAux fuel draws filters start = some p ∧
      portExists filters p = false := by
  induction fuel generalizing start with
  | zero =>
    obtain ⟨j, hj, _⟩ := h
    exact absurd hj (Nat.not_lt_zero j)
  | succ n ih =>
    by_cases hc : portExists filters (drawPort draws start) = true
    · obtain ⟨j, hj, hfree⟩ := h
      have hj0 : j ≠ 0 := by
        intro h0
        subst h0
        simp only [Nat.add_zero] at hfree
        rw [hc] at hfree
        cases hfree
      obtain ⟨j', rfl⟩ := Nat.exists_eq_succ_of_ne_zero hj0
      have := ih (start + 1) ⟨j', by omega, by
        have : start + 1 + j' = start + (j' + 1) := by omega
        rw [this]
        exact hfree⟩
      obtain ⟨p, hp, hfp⟩ := this
      refine ⟨p, ?_, hfp⟩
      rw [selectUpPortAux, if_pos hc]
      exact hp
    · rw [Bool.not_eq_true] at hc
      refine ⟨drawPort draws start, ?_, hc⟩
      rw [selectUpPortAux, if_neg (by rw [hc]; exact Bool.false_ne_true)]

theorem parseFilterList_err (pf : String → Except Unit Filter)
    (ss : List String) (h : ∃ s ∈ ss, pf s = .error ()) :
    parseFilterList pf ss = .error () := by
  induction ss with
  | nil =>
    obtain ⟨s, hs, -⟩ := h
    cases hs
  | cons s rest ih =>
    obtain ⟨s', hs', he⟩ := h
    rw [parseFilterList]
    cases hps : pf s with
    | error e =>
      cases e
      rfl
    | ok f =>
      rcases List.mem_cons.mp hs' with rfl | hmem
      · rw [hps] at he
        cases he
      · rw [ih ⟨s', hmem, he⟩]

/-- Claim C1: evaluation of the selection loop at a filter list holding a
single ByIPPort filter with port 49200, the random stream constantly drawing
48 (candidate 49152 + 48 = 49200).  The loop accepts 49200 on the first
draw, even though it equals the ByIPPort filter's port: the `case
FilterTypeIP, FilterTypeIPPort` arm of the switch never sets `exist`, so
ByIPPort filters are not avoided, contrary to the spec and to the comment
above the loop. -/
theorem ipPortFilterNotAvoided :
    selectUpPortAux 1 (fun _ => 48) [Filter.ipPort 16909060 49200] 0 =
      some 49200 ∧
    portExists [Filter.ipPort 16909060 49200] 49200 = false := by
  constructor <;> decide

/-- Claim C2: whenever the selection loop returns a port, that port differs
from 49200 if some ByPort filter carries port 49200. -/
theorem selectedPortAvoidsByPort49200 (fuel : Nat) (draws : Nat → Nat)
    (filters : List Filter) (i p : Nat)
    (hmem : Filter.port 49200 ∈ filters)
    (hsel : selectUpPortAux fuel draws filters i = some p) :
    p ≠ 49200 := by
  intro hp
  subst hp
  have hfree := selectUpPortAux_no_collision fuel draws filters i 49200 hsel
  have : portExists filters 49200 = true := by
    unfold portExists
    rw [List.any_eq_true]
    exact ⟨Filter.port 49200, hmem, by decide⟩
  rw [this] at hfree
  cases hfree

theorem selectedPortAvoidsByPort49200_inst : (49252 : Nat) ≠ 49200 :=
  selectedPortAvoidsByPort49200 1 (fun _ => 100) [Filter.port 49200] 0 49252
    (by decide) (by decide)

/-- Claim C3: whenever a run reaches the device-lookup stage with a
configuration whose upstream port was 0 (auto-selection), the effective
upstream port lies in [49152, 65535]. -/
theorem selectedPortInRange (co : Collab) (a : Args) (draws : Nat → Nat)
    (fuel : Nat) (cfg : Config) (fs : List Filter) (up sip sport : Nat)
    (h : mainModel co a draws fuel = some (.deviceLookup cfg fs up sip sport))
    (h0 : cfg.upPort = 0) :
    49152 ≤ up ∧ up ≤ 65535 := by
  simp only [mainModel] at h
  split at h
  · simp at h
  · rename_i c hgc
    unfold afterConfig at h
    split at h
    · split at h <;> simp at h
    · split at h
      · simp at h
      · split at h
        · simp at h
        · split at h
          · simp at h
          · split at h
            · simp at h
            · split at h
              · simp at h
              · rename_i up' hsel
                split at h
                · simp at h
                · split at h
                  · simp at h
                  · rw [Option.some_inj] at h
                    obtain ⟨hcfg, hfs, hup, -, -⟩ := Outcome.deviceLookup.inj h
                    subst hcfg hfs hup
                    rw [if_pos h0] at hsel
                    exact selectUpPortAux_range fuel draws _ 0 _ hsel

theorem selectedPortInRange_inst : 49152 ≤ 49152 ∧ 49152 ≤ 65535 :=
  selectedPortInRange okCollab autoPortArgs (fun _ => 0) 1
    (argsConfig autoPortArgs) [Filter.port 1] 49152 5 80
    (by decide) (by decide)

/-- Claim C6: if the ByPort filters do not cover every port of
[49152, 65535] (some port there is free) and the stream of random draws is
fair (every residue modulo 16384 eventually occurs, the almost-sure
behaviour of the uniform source), then the retry loop terminates: some fuel
suffices and the returned port collides with no ByPort filter. -/
theorem selectionTerminates (draws : Nat → Nat) (filters : List Filter)
    (hfree : ∃ p, 49152 ≤ p ∧ p ≤ 65535 ∧ portExists filters p = false)
    (hfair : ∀ k, k < 16384 → ∃ i, draws i % 16384 = k) :
    ∃ fuel p, selectUpPortAux fuel draws filters 0 = some p ∧
      portExists filters p = false := by
  obtain ⟨p, hp1, hp2, hp3⟩ := hfree
  obtain ⟨i, hi⟩ := hfair (p - 49152) (by omega)
  have hdraw : drawPort draws i = p := by
    unfold drawPort
    omega
  obtain ⟨q, hq, hfq⟩ := selectUpPortAux_of_free (i + 1) draws filters 0
    ⟨i, by omega, by rw [Nat.zero_add, hdraw]; exact hp3⟩
  exact ⟨i + 1, q, hq, hfq⟩

theorem selectionTerminates_inst :
    ∃ fuel p, selectUpPortAux fuel (fun n => n) [Filter.port 49152] 0 = some p ∧
      portExists [Filter.port 49152] p = false :=
  selectionTerminates (fun n => n) [Filter.port 49152]
    ⟨49153, by decide, by decide, by decide⟩
    (fun k hk => ⟨k, Nat.mod_eq_of_lt hk⟩)

/-- Claim C4 counterexample: a run whose configuration has an empty filter
list, an empty server and an out-of-range upstream port, but with the
`-list-devices` flag set and a working device enumeration: the process
lists the devices and exits with status 0 instead of reporting a fatal
error and exiting non-zero. -/
theorem emptyFiltersListModeExitsZero :
    mainModel okCollab listModeEmptyArgs (fun _ => 0) 1 =
      some (.listOk ["eth0"]) ∧
    (argsConfig listModeEmptyArgs).filters = [] ∧
    Outcome.isFatal (.listOk ["eth0"]) = false := by
  refine ⟨by decide, by decide, rfl⟩

/-- Claim C4 (amended): when the list-devices flag is not given, any
obtained configuration with an empty filter list, an empty server string,
or an upstream port outside [0, 65535] makes the client report a fatal
error and exit non-zero before any device lookup or open is attempted. -/
theorem invalidConfigFatal (co : Collab) (a : Args) (cfg : Config)
    (draws : Nat → Nat) (fuel : Nat)
    (hl : a.listDevs = false) (hc : getConfig co a = some cfg)
    (hbad : cfg.filters.length ≤ 0 ∨ cfg.server = ("") ∨
      cfg.upPort < 0 ∨ 65536 ≤ cfg.upPort) :
    (mainModel co a draws fuel).map Outcome.preDeviceFatal = some true := by
  have hm : mainModel co a draws fuel = afterConfig co a cfg draws fuel := by
    simp [mainModel, hc]
  rw [hm]
  unfold afterConfig
  rw [if_neg (by rw [hl]; exact Bool.false_ne_true)]
  by_cases h1 : cfg.filters.length ≤ 0
  · rw [if_pos h1]
    rfl
  · rw [if_neg h1]
    by_cases h2 : cfg.server = ("")
    · rw [if_pos h2]
      rfl
    · rw [if_neg h2]
      have hport : cfg.upPort < 0 ∨ 65536 ≤ cfg.upPort := by
        rcases hbad with h | h | h | h
        · exact absurd h h1
        · exact absurd h h2
        · exact Or.inl h
        · exact Or.inr h
      cases hpf : parseFilterList co.parseFilter cfg.filters with
      | error e =>
        simp only [hpf]
        rfl
      | ok fs =>
        simp only [hpf]
        rw [if_pos hport]
        rfl

theorem invalidConfigFatal_inst :
    (mainModel okCollab noFiltersArgs (fun _ => 0) 1).map
      Outcome.preDeviceFatal = some true :=
  invalidConfigFatal okCollab noFiltersArgs (argsConfig noFiltersArgs)
    (fun _ => 0) 1 rfl (by decide) (Or.inl (by decide))

/-- Claim C5 counterexample: a configuration containing a filter string the
parser rejects (and an unknown method), run with `-list-devices`: the
process lists the devices and exits 0, device enumeration included, instead
of reporting a fatal error and exiting non-zero. -/
theorem malformedFilterListModeExitsZero :
    mainModel rejectCollab listModeBadArgs (fun _ => 0) 1 =
      some (.listOk ["eth0"]) ∧
    rejectCollab.parseFilter ("x") = .error () ∧
    Outcome.isFatal (.listOk ["eth0"]) = false := by
  refine ⟨by decide, rfl, rfl⟩

/-- Claim C5 (amended): when the list-devices flag is not given, any
obtained configuration containing a malformed filter string (one the filter
parser rejects) or an unknown encryption method makes every terminating run
end in a fatal error, reported and exiting non-zero before any device
lookup or open is attempted. -/
theorem malformedOrUnknownMethodFatal (co : Collab) (a : Args) (cfg : Config)
    (draws : Nat → Nat) (fuel : Nat) (o : Outcome)
    (hl : a.listDevs = false) (hc : getConfig co a = some cfg)
    (hbad : hasMalformedFilter co cfg ∨ hasUnknownMethod co cfg)
    (ho : mainModel co a draws fuel = some o) :
    Outcome.preDeviceFatal o = true := by
  have hm : mainModel co a draws fuel = afterConfig co a cfg draws fuel := by
    simp [mainModel, hc]
  rw [hm] at ho
  unfold afterConfig at ho
  rw [if_neg (by rw [hl]; exact Bool.false_ne_true)] at ho
  split at ho
  · obtain rfl := Option.some.inj ho
    rfl
  · split at ho
    · obtain rfl := Option.some.inj ho
      rfl
    · split at ho
      · obtain rfl := Option.some.inj ho
        rfl
      · rename_i fs hpf
        rcases hbad with hb | hb
        · rw [parseFilterList_err co.parseFilter cfg.filters hb] at hpf
          cases hpf
        · split at ho
          · obtain rfl := Option.some.inj ho
            rfl
          · split at ho
            · cases ho
            · split at ho
              · obtain rfl := Option.some.inj ho
                rfl
              · split at ho
                · obtain rfl := Option.some.inj ho
                  rfl
                · rename_i u hcr
                  rw [hb] at hcr
                  cases hcr

theorem malformedOrUnknownMethodFatal_inst :
    Outcome.preDeviceFatal (.fatal .parseFilter) = true :=
  malformedOrUnknownMethodFatal rejectCollab badFilterArgs
    (argsConfig badFilterArgs) (fun _ => 0) 1 (.fatal .parseFilter) rfl
    (by decide) (Or.inl ⟨"x", by decide, rfl⟩) (by decide)

/-- Claim C7: with the list-devices flag given, if the configuration step
succeeds and device enumeration succeeds, the run prints the devices and
exits 0; a config-file parse failure or an enumeration failure each end the
run with the corresponding reported fatal error and a non-zero exit. -/
theorem listDevicesOutcomes (co : Collab) (a : Args) (draws : Nat → Nat)
    (fuel : Nat) (cfg : Config) (devs : List String)
    (hl : a.listDevs = true) :
    (getConfig co a = some cfg → co.findAllDevs = .ok devs →
      mainModel co a draws fuel = some (.listOk devs)) ∧
    (a.config ≠ ("") → co.parseConfigFile a.config = .error () →
      mainModel co a draws fuel = some (.fatal .parseConfig)) ∧
    (getConfig co a = some cfg → co.findAllDevs = .error () →
      mainModel co a draws fuel = some (.fatal .listDevs)) := by
  refine ⟨?_, ?_, ?_⟩
  · intro hc hd
    simp [mainModel, hc, afterConfig, hl, hd]
  · intro hne hpe
    simp [mainModel, getConfig, hne, hpe]
  · intro hc hd
    simp [mainModel, hc, afterConfig, hl, hd]

theorem listDevicesOutcomes_inst :
    (getConfig okCollab listArgs = some (argsConfig listArgs) →
      okCollab.findAllDevs = .ok ["eth0"] →
      mainModel okCollab listArgs (fun _ => 0) 1 = some (.listOk ["eth0"])) ∧
    (listArgs.config ≠ ("") →
      okCollab.parseConfigFile listArgs.config = .error () →
      mainModel okCollab listArgs (fun _ => 0) 1 =
        some (.fatal .parseConfig)) ∧
    (getConfig okCollab listArgs = some (argsConfig listArgs) →
      okCollab.findAllDevs = .error () →
      mainModel okCollab listArgs (fun _ => 0) 1 =
        some (.fatal .listDevs)) :=
  listDevicesOutcomes okCollab listArgs (fun _ => 0) 1
    (argsConfig listArgs) ["eth0"] rfl

/-- Claim C8 counterexample: with `-list-devices` given but device
enumeration failing, the run does not list devices and exit 0; it ends in a
fatal (non-zero) exit. -/
theorem listDevicesEnumFailureFatal :
    mainModel noDevsCollab listArgs (fun _ => 0) 1 =
      some (.fatal .listDevs) ∧
    Outcome.isFatal (.fatal .listDevs) = true := by
  refine ⟨by decide, rfl⟩

/-- Claim C8 (amended): when the list-devices flag is given, the
configuration step succeeds and device enumeration succeeds, the listing
runs and the process exits 0 before any configuration validation; and in
list-devices mode no run ends with the missing-filters, missing-server,
out-of-range-port or malformed-filter fatal errors. -/
theorem listDevicesNoValidation (co : Collab) (a : Args) (draws : Nat → Nat)
    (fuel : Nat) (cfg : Config) (devs : List String) (o : Outcome)
    (hl : a.listDevs = true) (ho : mainModel co a draws fuel = some o) :
    (getConfig co a = some cfg → co.findAllDevs = .ok devs →
      o = .listOk devs) ∧
    (o ≠ .fatal .noFilters ∧ o ≠ .fatal .noServer ∧
      o ≠ .fatal .portRange ∧ o ≠ .fatal .parseFilter) := by
  simp only [mainModel] at ho
  split at ho
  · rename_i hgc
    obtain rfl := Option.some.inj ho
    refine ⟨?_, by decide, by decide, by decide, by decide⟩
    intro hc _
    rw [hgc] at hc
    cases hc
  · rename_i c hgc
    unfold afterConfig at ho
    rw [if_pos hl] at ho
    split at ho
    · rename_i e hdv
      obtain rfl := Option.some.inj ho
      refine ⟨?_, by decide, by decide, by decide, by decide⟩
      intro _ hd
      rw [hd] at hdv
      cases hdv
    · rename_i ds hdv
      obtain rfl := Option.some.inj ho
      refine ⟨?_, by simp, by simp, by simp, by simp⟩
      intro _ hd
      rw [hd] at hdv
      obtain rfl := Except.ok.inj hdv
      rfl

theorem listDevicesNoValidation_inst :
    (getConfig okCollab listModeBadArgs = some (argsConfig listModeBadArgs) →
      okCollab.findAllDevs = .ok ["eth0"] →
      Outcome.listOk ["eth0"] = .listOk ["eth0"]) ∧
    ((Outcome.listOk ["eth0"]) ≠ .fatal .noFilters ∧
      (Outcome.listOk ["eth0"]) ≠ .fatal .noServer ∧
      (Outcome.listOk ["eth0"]) ≠ .fatal .portRange ∧
      (Outcome.listOk ["eth0"]) ≠ .fatal .parseFilter) :=
  listDevicesNoValidation okCollab listModeBadArgs (fun _ => 0) 1
    (argsConfig listModeBadArgs) ["eth0"] (.listOk ["eth0"]) rfl (by decide)

/-- Claim C10: when a config file is supplied and parses, the effective
configuration is exactly the parsed file, and the whole modelled run is
unchanged under arbitrary changes to the inline listen-devices, upstream
device, method, password, verbosity, upstream port, filter and server
flags. -/
theorem configFileOverridesFlags (co : Collab) (a a' : Args) (c : Config)
    (draws : Nat → Nat) (fuel : Nat)
    (h : a.config ≠ ("")) (h2 : a'.config = a.config)
    (h3 : a'.listDevs = a.listDevs)
    (hp : co.parseConfigFile a.config = .ok c) :
    getConfig co a = some c ∧ getConfig co a' = some c ∧
    mainModel co a draws fuel = mainModel co a' draws fuel := by
  have hga : getConfig co a = some c := by
    unfold getConfig
    rw [if_neg h, hp]
  have hga' : getConfig co a' = some c := by
    unfold getConfig
    rw [h2, if_neg h, hp]
  refine ⟨hga, hga', ?_⟩
  have hm : mainModel co a draws fuel = afterConfig co a c draws fuel := by
    simp [mainModel, hga]
  have hm' : mainModel co a' draws fuel = afterConfig co a' c draws fuel := by
    simp [mainModel, hga']
  rw [hm, hm']
  unfold afterConfig
  rw [h3]

theorem configFileOverridesFlags_inst :
    getConfig fileCollab fileArgs = some (argsConfig autoPortArgs) ∧
    getConfig fileCollab fileArgsAlt = some (argsConfig autoPortArgs) ∧
    mainModel fileCollab fileArgs (fun _ => 0) 1 =
      mainModel fileCollab fileArgsAlt (fun _ => 0) 1 :=
  configFileOverridesFlags fileCollab fileArgs fileArgsAlt
    (argsConfig autoPortArgs) (fun _ => 0) 1 (by decide) rfl rfl rfl

theorem splitComma_ne_nil (l : List Char) : splitComma l ≠ [] := by
  cases l with
  | nil => exact List.cons_ne_nil _ _
  | cons c rest =>
    rw [splitComma]
    split
    · exact List.cons_ne_nil _ _
    · split
      · exact List.cons_ne_nil _ _
      · exact List.cons_ne_nil _ _

theorem splitComma_length (l : List Char) :
    (splitComma l).length = l.count ',' + 1 := by
  induction l with
  | nil => rfl
  | cons c rest ih =>
    rw [splitComma]
    split
    · rename_i hc
      subst hc
      simp [List.count_cons, ih]
    · rename_i hc
      cases hsp : splitComma rest with
      | nil => exact absurd hsp (splitComma_ne_nil rest)
      | cons h t =>
        rw [hsp] at ih
        have hcc : (c == ',') = false := by
          simp only [beq_eq_false_iff_ne, ne_eq]
          exact hc
        show ((c :: h) :: t).length = List.count ',' (c :: rest) + 1
        simp only [List.length_cons] at ih ⊢
        simp [List.count_cons, hcc]
        omega

theorem joinComma_splitComma (l : List Char) :
    joinComma (splitComma l) = l := by
  induction l with
  | nil => rfl
  | cons c rest ih =>
    rw [splitComma]
    split
    · rename_i hc
      subst hc
      cases hsp : splitComma rest with
      | nil => exact absurd hsp (splitComma_ne_nil rest)
      | cons h t =>
        rw [hsp] at ih
        show joinComma ([] :: h :: t) = ',' :: rest
        rw [joinComma]
        simp [ih]
    · rename_i hc
      cases hsp : splitComma rest with
      | nil => exact absurd hsp (splitComma_ne_nil rest)
      | cons h t =>
        rw [hsp] at ih
        show joinComma ((c :: h) :: t) = c :: rest
        cases t with
        | nil =>
          rw [joinComma]
          rw [joinComma] at ih
          rw [ih]
        | cons y t' =>
          rw [joinComma]
          rw [joinComma] at ih
          rw [← ih]
          rfl

theorem splitComma_all_no_comma (l : List Char) :
    ((splitComma l).all fun part => part.all fun c => c != ',') = true := by
  induction l with
  | nil => rfl
  | cons c rest ih =>
    rw [splitComma]
    split
    · rename_i hc
      simpa using ih
    · rename_i hc
      cases hsp : splitComma rest with
      | nil => exact absurd hsp (splitComma_ne_nil rest)
      | cons h t =>
        rw [hsp] at ih
        show (((c :: h) :: t).all fun part => part.all fun ch => ch != ',') = true
        simp only [List.all_cons, Bool.and_eq_true] at ih ⊢
        exact ⟨⟨by simpa using hc, ih.1⟩, ih.2⟩

theorem getD_map_trimSpaces (xs : List (List Char)) (i : Nat) :
    (xs.map trimSpaces).getD i [] = trimSpaces (xs.getD i []) := by
  induction xs generalizing i with
  | nil => cases i <;> rfl
  | cons x xs ih =>
    cases i with
    | zero => rfl
    | succ n => exact ih n

theorem takeWhile_space_replicate (l : List Char) :
    l = List.replicate (l.takeWhile (fun c => c == ' ')).length ' ' ++
      l.dropWhile (fun c => c == ' ') := by
  conv_lhs => rw [← List.takeWhile_append_dropWhile (fun c => c == ' ') l]
  congr 1
  apply List.eq_replicate_of_mem
  intro b hb
  have hpb := List.mem_takeWhile_imp hb
  simp only [beq_iff_eq] at hpb
  exact hpb

theorem trimSpaces_decomp (m : List Char) :
    ∃ x y, m = List.replicate x ' ' ++ trimSpaces m ++ List.replicate y ' ' := by
  refine ⟨(m.takeWhile (fun c => c == ' ')).length,
    ((m.dropWhile (fun c => c == ' ')).reverse.takeWhile
      (fun c => c == ' ')).length, ?_⟩
  have h1 := takeWhile_space_replicate m
  have h2 := takeWhile_space_replicate (m.dropWhile (fun c => c == ' ')).reverse
  have h3 := congrArg List.reverse h2
  rw [List.reverse_reverse, List.reverse_append, List.reverse_replicate] at h3
  rw [trimSpaces]
  rw [List.append_assoc, ← h3]
  exact h1

/-- Claim C9: splitArg on the empty string is the empty list; on a
non-empty string it is the list of comma-separated components (joining the
components with commas recovers the string and no component contains a
comma), in order and in full count (one more component than commas, empty
components included), each component trimmed of its surrounding spaces. -/
theorem splitArg_components (l : List Char) (i : Nat)
    (hne : l ≠ []) (_hi : i < (splitComma l).length) :
    splitArg ("") = ([] : List String) ∧
    splitArgL [] = [] ∧
    (splitArgL l).length = l.count ',' + 1 ∧
    (splitArgL l).getD i [] = trimSpaces ((splitComma l).getD i []) ∧
    joinComma (splitComma l) = l ∧
    ((splitComma l).all fun part => part.all fun c => c != ',') = true ∧
    ∃ x y, (splitComma l).getD i [] =
      List.replicate x ' ' ++ (splitArgL l).getD i [] ++ List.replicate y ' ' := by
  have hsa : splitArgL l = (splitComma l).map trimSpaces := by
    rw [splitArgL, if_neg hne]
  refine ⟨rfl, rfl, ?_, ?_, joinComma_splitComma l,
    splitComma_all_no_comma l, ?_⟩
  · rw [hsa, List.length_map, splitComma_length]
  · rw [hsa, getD_map_trimSpaces]
  · rw [hsa, getD_map_trimSpaces]
    exact trimSpaces_decomp _

theorem splitArg_components_inst :
    splitArg ("") = ([] : List String) ∧
    splitArgL [] = [] ∧
    (splitArgL (" a ,, b".toList)).length = (" a ,, b".toList).count ',' + 1 ∧
    (splitArgL (" a ,, b".toList)).getD 1 [] =
      trimSpaces ((splitComma (" a ,, b".toList)).getD 1 []) ∧
    joinComma (splitComma (" a ,, b".toList)) = " a ,, b".toList ∧
    ((splitComma (" a ,, b".toList)).all fun part =>
      part.all fun c => c != ',') = true ∧
    ∃ x y, (splitComma (" a ,, b".toList)).getD 1 [] =
      List.replicate x ' ' ++ (splitArgL (" a ,, b".toList)).getD 1 [] ++
        List.replicate y ' ' :=
  splitArg_components (" a ,, b".toList) 1 (by decide) (by decide)

end IkaGo
